import Mathlib

/-!
Verification of the swipe-slider gesture engine.

The repository ships two variants of the same engine (`src/unnamed/part_000`,
a pointer-events build, and `src/unnamed/part_001`, a condensed build with a
`paused` flag and wheel `deltaMode` normalization).  We shallowly embed the
state and the state-changing operations of both variants.  JavaScript numbers
are modelled as rationals, timestamps as integers (milliseconds), DOM slide
nodes as natural-number handles, and the JS sparse array `slidePos` as a
`List ℚ` together with the JS assignment semantics (negative indices are
ignored, indices past the end extend the array, holes read as an inert 0).
Rendering calls (`translate`, style writes) do not change engine state and are
omitted; persisted offsets (`move`) are kept.
-/

/-- Lifecycle notifications produced by the engine, in emission order.
`change` corresponds to `config.callback` (re-dispatched as `swipe:change`),
`dragStart`/`dragEnd`/`moveEv`/`transEnd` to the remaining hooks. -/
inductive SwipeEv where
  | change (pos : ℤ) (dir : ℚ)
  | dragStart (pos : ℤ)
  | dragEnd (pos : ℤ)
  | moveEv
  | transEnd (pos : ℤ)
deriving DecidableEq, Repr

/-- The durable and session state of one engine instance, shared by both
variants: `slides` are the track children (abstract handles), `slidePos` the
persisted rest offsets, `width` the measured container width, `index` the
active index, `speed` the configured transition speed, `deltaX`/`deltaY` the
live drag delta (`0` models the cleared `delta = {}`), `isScrolling` the
memoized axis lock (`none` = undecided), `startTime` the session start
timestamp, and `sessionOpen` whether session-scoped listeners are attached. -/
structure SwipeState where
  slides : List Nat
  slidePos : List ℚ
  width : ℚ
  index : ℤ
  speed : ℚ
  deltaX : ℚ
  deltaY : ℚ
  isScrolling : Option Bool
  startTime : ℤ
  sessionOpen : Bool
deriving DecidableEq, Repr

/-- JavaScript's `%` (truncated remainder: result has the dividend's sign). -/
def jsMod (a b : ℤ) : ℤ :=
  if 0 ≤ a then a % b else -((-a) % b)

/-- `circle` of part_000: `(slides.length + (idx % slides.length)) % slides.length`. -/
def circle0 (n : ℕ) (idx : ℤ) : ℤ :=
  jsMod ((n : ℤ) + jsMod idx n) n

/-- `circle` of part_001: `(idx + length) % length`. -/
def circle1 (n : ℕ) (idx : ℤ) : ℤ :=
  jsMod (idx + (n : ℤ)) n

/-- Reading `slidePos[i]`: out-of-range (or hole) reads are scratch, modelled
as `0`. In-range behaviour is the list entry. -/
def jsArrayGet (l : List ℚ) (i : ℤ) : ℚ :=
  if 0 ≤ i then l.getD i.toNat 0 else 0

/-- Writing `slidePos[i] = v`: a negative index leaves the array entries
untouched (it becomes a plain property), an index past the end extends the
array (holes modelled as `0`), otherwise the entry is replaced. -/
def jsArraySet (l : List ℚ) (i : ℤ) (v : ℚ) : List ℚ :=
  if i < 0 then l
  else if i.toNat < l.length then l.set i.toNat v
  else l ++ List.replicate (i.toNat - l.length) 0 ++ [v]

/-- `appendChild`: a node already in the child list is moved to the end. -/
def jsAppendChild (l : List Nat) (s : Nat) : List Nat :=
  (l.filter (fun x => x != s)) ++ [s]

/-- `prepend`: a node already in the child list is moved to the front. -/
def jsPrependChild (l : List Nat) (s : Nat) : List Nat :=
  s :: (l.filter (fun x => x != s))

/-- `index > i ? -width : index < i ? width : 0` from `setup` (both variants). -/
def initialDist (index i : ℤ) (w : ℚ) : ℚ :=
  if index > i then -w else if index < i then w else 0

/-- `setup` of part_000 (state part): with no slides it returns early,
otherwise it rebuilds `slidePos` as a fresh fully-written array with the
initial rest offsets.  The re-measured width of the same container and the
listener (re)attachment have no effect on the embedded state. -/
def setup0 (st : SwipeState) : SwipeState :=
  if st.slides.length = 0 then st
  else { st with slidePos := (List.ofFn
    (fun i : Fin st.slides.length => initialDist st.index (i : ℤ) st.width)) }

/-- `setup` of part_001: identical state behaviour (it differs only in how the
container width is measured and how listeners are attached). -/
def setup1 (st : SwipeState) : SwipeState :=
  if st.slides.length = 0 then st
  else { st with slidePos := (List.ofFn
    (fun i : Fin st.slides.length => initialDist st.index (i : ℤ) st.width)) }

/-- `applyResistance` of part_000: damped `deltaX / (|deltaX|/width + 1)` when
dragging further out at the first or last slide, identity otherwise. -/
def applyResistance0 (index : ℤ) (n : ℕ) (w : ℚ) (dx : ℚ) : ℚ :=
  if (index = 0 ∧ 0 < dx) ∨ (index = (n : ℤ) - 1 ∧ dx < 0) then
    dx / (|dx| / w + 1)
  else dx

/-- `applyResistance` of part_001 (same ternary, written as if/else there). -/
def applyResistance1 (index : ℤ) (n : ℕ) (w : ℚ) (dx : ℚ) : ℚ :=
  if (index = 0 ∧ 0 < dx) ∨ (index = (n : ℤ) - 1 ∧ dx < 0) then
    dx / (|dx| / w + 1)
  else dx

/-- `getPos` of part_000: wraps once when the index ran past the count. -/
def getPos0 (st : SwipeState) : ℤ :=
  if st.index ≥ (st.slides.length : ℤ) then st.index - st.slides.length else st.index

/-- `getPos` of part_001: returns the raw index. -/
def getPos1 (st : SwipeState) : ℤ := st.index

/-- `isValidSlide` from `finishSwipe`:
`(duration < 250 && absX > 20) || absX > width / 2` (both variants). -/
def validSwipe (st : SwipeState) (now : ℤ) : Bool :=
  decide ((now - st.startTime < 250 ∧ 20 < |st.deltaX|) ∨ st.width / 2 < |st.deltaX|)

/-- `isPastBounds` from `finishSwipe`:
`(!index && delta.x > 0) || (index === slides.length - 1 && delta.x < 0)`. -/
def pastBounds (st : SwipeState) : Bool :=
  decide ((st.index = 0 ∧ 0 < st.deltaX) ∨
          (st.index = (st.slides.length : ℤ) - 1 ∧ st.deltaX < 0))

/-- `finishSwipe` of part_000.  `now` is `Date.now()` at session end.  The
guard `!isScrolling && delta.x` is truthy when the axis lock is not
VerticalScroll (`undefined` counts as horizontal, which is how wheel sessions
commit) and the recorded delta is nonzero.  A valid in-bounds swipe commits:
it moves the three tracked slides, wraps the index with `circle`, and fires
`callback` (onChange) with the new position; otherwise the three tracked
slides are written back to their rest offsets.  `dragEnd` always fires last. -/
def finishSwipe0 (st : SwipeState) (now : ℤ) : SwipeState × List SwipeEv :=
  if st.isScrolling ≠ some true ∧ st.deltaX ≠ 0 then
    let direction : ℚ := if st.deltaX = 0 then 0 else |st.deltaX| / st.deltaX
    if validSwipe st now && !pastBounds st then
      if direction < 0 then
        let p1 := jsArraySet st.slidePos (st.index - 1) (-st.width)
        let p2 := jsArraySet p1 st.index (jsArrayGet p1 st.index - st.width)
        let t := circle0 st.slides.length (st.index + 1)
        let p3 := jsArraySet p2 t (jsArrayGet p2 t - st.width)
        let st' := { st with slidePos := p3, index := t }
        (st', [SwipeEv.change (getPos0 st') direction, SwipeEv.dragEnd (getPos0 st')])
      else
        let p1 := jsArraySet st.slidePos (st.index + 1) st.width
        let p2 := jsArraySet p1 st.index (jsArrayGet p1 st.index + st.width)
        let t := circle0 st.slides.length (st.index - 1)
        let p3 := jsArraySet p2 t (jsArrayGet p2 t + st.width)
        let st' := { st with slidePos := p3, index := t }
        (st', [SwipeEv.change (getPos0 st') direction, SwipeEv.dragEnd (getPos0 st')])
    else
      let p1 := jsArraySet st.slidePos (st.index - 1) (-st.width)
      let p2 := jsArraySet p1 st.index 0
      let p3 := jsArraySet p2 (st.index + 1) st.width
      let st' := { st with slidePos := p3 }
      (st', [SwipeEv.dragEnd (getPos0 st')])
  else
    (st, [SwipeEv.dragEnd (getPos0 st)])

/-- `finishSwipe` of part_001: same logic with its own `circle` and with raw
`index` as the notification payload (part_001 has no wrapping `getPos`). -/
def finishSwipe1 (st : SwipeState) (now : ℤ) : SwipeState × List SwipeEv :=
  if st.isScrolling ≠ some true ∧ st.deltaX ≠ 0 then
    let direction : ℚ := if st.deltaX = 0 then 0 else |st.deltaX| / st.deltaX
    if validSwipe st now && !pastBounds st then
      if direction < 0 then
        let p1 := jsArraySet st.slidePos (st.index - 1) (-st.width)
        let p2 := jsArraySet p1 st.index (jsArrayGet p1 st.index - st.width)
        let t := circle1 st.slides.length (st.index + 1)
        let p3 := jsArraySet p2 t (jsArrayGet p2 t - st.width)
        let st' := { st with slidePos := p3, index := t }
        (st', [SwipeEv.change (getPos1 st') direction, SwipeEv.dragEnd (getPos1 st')])
      else
        let p1 := jsArraySet st.slidePos (st.index + 1) st.width
        let p2 := jsArraySet p1 st.index (jsArrayGet p1 st.index + st.width)
        let t := circle1 st.slides.length (st.index - 1)
        let p3 := jsArraySet p2 t (jsArrayGet p2 t + st.width)
        let st' := { st with slidePos := p3, index := t }
        (st', [SwipeEv.change (getPos1 st') direction, SwipeEv.dragEnd (getPos1 st')])
    else
      let p1 := jsArraySet st.slidePos (st.index - 1) (-st.width)
      let p2 := jsArraySet p1 st.index 0
      let p3 := jsArraySet p2 (st.index + 1) st.width
      let st' := { st with slidePos := p3 }
      (st', [SwipeEv.dragEnd (getPos1 st')])
  else
    (st, [SwipeEv.dragEnd (getPos1 st)])

/-- Session end of part_000 (`onPointerUp`/`onTouchEnd`/`onMouseUp`): releases
capture, detaches the session-scoped listeners (machine back to Idle) and runs
`finishSwipe`. -/
def onEnd0 (st : SwipeState) (now : ℤ) : SwipeState × List SwipeEv :=
  let r := finishSwipe0 st now
  ({ r.1 with sessionOpen := false }, r.2)

/-- `slideTo` of part_000.  `direction = |index−to| / (index−to)`; the while
loop pre-positions the intermediate indices (ascending `min+1 … max−1`) fully
off-screen, then the outgoing and target slides are moved and the index is set
to `circle(to)`.  The `callback` (onChange) runs on the next animation frame. -/
def slideTo0 (st : SwipeState) (to0 : ℤ) (_slideSpeed : Option ℚ) : SwipeState × List SwipeEv :=
  if st.index = to0 then (st, [])
  else
    let n := st.slides.length
    let direction : ℚ := |(st.index : ℚ) - (to0 : ℚ)| / ((st.index : ℚ) - (to0 : ℚ))
    let diff := (st.index - to0).natAbs - 1
    let base := if to0 > st.index then to0 else st.index
    let pos1 := (List.range diff).foldl
      (fun acc k => jsArraySet acc (circle0 n (base - ((diff : ℤ) - 1 - k) - 1))
        (st.width * direction)) st.slidePos
    let t := circle0 n to0
    let pos2 := jsArraySet pos1 st.index (st.width * direction)
    let pos3 := jsArraySet pos2 t 0
    let st' := { st with slidePos := pos3, index := t }
    (st', [SwipeEv.change (getPos0 st') direction])

/-- `prev` of part_000: unconditional `slideTo(index - 1)`. -/
def prev0 (st : SwipeState) : SwipeState × List SwipeEv :=
  slideTo0 st (st.index - 1) none

/-- `next` of part_000: bounded; only slides when `index < slides.length - 1`. -/
def next0 (st : SwipeState) : SwipeState × List SwipeEv :=
  if st.index < (st.slides.length : ℤ) - 1 then slideTo0 st (st.index + 1) none
  else (st, [])

/-- `setIndex` of part_000/part_001: stores the argument verbatim. -/
def setIndex0 (st : SwipeState) (newIndex : ℤ) : SwipeState :=
  { st with index := newIndex }

/-- `appendSlide` of part_000: removes the first child, appends the node,
decrements the index, re-runs `setup`. -/
def appendSlide0 (s : Nat) (st : SwipeState) : SwipeState :=
  setup0 { st with slides := jsAppendChild st.slides.tail s, index := st.index - 1 }

/-- `prependSlide` of part_000: removes the last child, prepends the node,
increments the index, re-runs `setup`. -/
def prependSlide0 (s : Nat) (st : SwipeState) : SwipeState :=
  setup0 { st with slides := jsPrependChild st.slides.dropLast s, index := st.index + 1 }

/-- `appendSlide` of part_001: appends the node and re-runs `setup`; the
index is left untouched. -/
def appendSlide1 (s : Nat) (st : SwipeState) : SwipeState :=
  setup1 { st with slides := jsAppendChild st.slides s }

/-- `prependSlide` of part_001: prepends the node, increments the index,
re-runs `setup`. -/
def prependSlide1 (s : Nat) (st : SwipeState) : SwipeState :=
  setup1 { st with slides := jsPrependChild st.slides s, index := st.index + 1 }

/-- part_001's wheel `deltaMode` normalization: line deltas (`deltaMode 1`)
scale by 40, page deltas (`deltaMode 2`) by the container width. -/
def wheelNormalize (deltaMode : ℤ) (w d : ℚ) : ℚ :=
  if deltaMode = 1 then d * 40 else if deltaMode = 2 then d * w else d

/-- `onWheel` of part_000 (state part): no unit normalization — the raw
`deltaX` is compared against 3.  A qualifying event resets the session clock
when the accumulator is empty, then accumulates `delta` with the progressive
slowdown factor (sequential reassignment: the *last* matching threshold
wins).  Rendering and the 50ms silence timer carry no state here; the timer's
`finishSwipe` is modelled by a later `finishSwipe0` call. -/
def onWheel0 (st : SwipeState) (now : ℤ) (eDeltaX eDeltaY : ℚ) : SwipeState :=
  if |eDeltaX| < 3 then st
  else
    let st1 := if st.deltaX = 0 then { st with startTime := now } else st
    let absDelta := |st1.deltaX|
    let slower : ℚ :=
      if absDelta > st1.width * 2 then 0.01
      else if absDelta > st1.width * 1.5 then 0.05
      else if absDelta > st1.width then 0.1
      else if absDelta > st1.width * 0.5 then 0.3
      else 0.7
    { st1 with deltaX := st1.deltaX - eDeltaX * slower,
               deltaY := st1.deltaY - eDeltaY * 0.5 }

/-- `onWheel` of part_001: ignores everything while `paused`, first converts
both deltas per `deltaMode`, then qualifies and accumulates exactly like
part_000 (its slowdown chain is written with the same thresholds). -/
def onWheel1 (st : SwipeState) (now : ℤ) (eDeltaX eDeltaY : ℚ) (deltaMode : ℤ)
    (paused : Bool) : SwipeState :=
  if paused then st
  else
    let dX := wheelNormalize deltaMode st.width eDeltaX
    let dY := wheelNormalize deltaMode st.width eDeltaY
    if |dX| < 3 then st
    else
      let st1 := if st.deltaX = 0 then { st with startTime := now } else st
      let absDelta := |st1.deltaX|
      let slower : ℚ :=
        if absDelta > st1.width * 2 then 0.01
        else if absDelta > st1.width * 1.5 then 0.05
        else if absDelta > st1.width then 0.1
        else if absDelta > st1.width * 0.5 then 0.3
        else 0.7
      { st1 with deltaX := st1.deltaX - dX * slower,
                 deltaY := st1.deltaY - dY * 0.5 }

/-- Spec-side damping table (amended wording): the tiers keyed to
`|accumulatedΔx|` are closed on the left — 0.7 at or below `W/2`, 0.3 at or
below `W`, 0.1 at or below `1.5·W`, 0.05 at or below `2·W`, else 0.01. -/
def wheelDampSpec (absAcc w : ℚ) : ℚ :=
  if absAcc ≤ w * 0.5 then 0.7
  else if absAcc ≤ w then 0.3
  else if absAcc ≤ w * 1.5 then 0.1
  else if absAcc ≤ w * 2 then 0.05
  else 0.01

/-- A JavaScript option value as it can appear in the caller's options
object: a number, a string, a boolean, or `null`/`undefined`-like. -/
inductive JSVal where
  | num (q : ℚ)
  | str (s : String)
  | boolV (b : Bool)
  | nullV
deriving DecidableEq, Repr

/-- First-match association lookup on a JS-object modelled as key/value pairs. -/
def lookupKV : List (String × JSVal) → String → Option JSVal
  | [], _ => none
  | p :: rest, k => if p.1 = k then some p.2 else lookupKV rest k

/-- Assigning a key on a JS object: replace the first occurrence in place, or
append the new key at the end. -/
def setKV : List (String × JSVal) → String → JSVal → List (String × JSVal)
  | [], k, v => [(k, v)]
  | p :: rest, k, v => if p.1 = k then (k, v) :: rest else p :: setKV rest k v

/-- Object spread `{ ...base, ...upd }`: every key of `upd` is assigned, in
order, over a copy of `base`. -/
def objSpread (base upd : List (String × JSVal)) : List (String × JSVal) :=
  upd.foldl (fun acc p => setKV acc p.1 p.2) base

/-- The documented defaults of part_000's `Swipe` constructor. -/
def defaults0 : List (String × JSVal) :=
  [("speed", JSVal.num 400), ("startSlide", JSVal.num 0),
   ("draggable", JSVal.boolV false), ("mousewheel", JSVal.boolV true),
   ("disableScroll", JSVal.boolV false), ("stopPropagation", JSVal.boolV false),
   ("ignore", JSVal.nullV), ("passive", JSVal.boolV false)]

/-- Value of the leading decimal-digit run, if any. -/
def digitsVal (cs : List Char) : Option ℕ :=
  let ds := cs.takeWhile (fun c => c.isDigit)
  if ds.isEmpty then none
  else some (ds.foldl (fun a c => a * 10 + (c.toNat - 48)) 0)

/-- `parseInt(s, 10)` on a string: skip leading spaces, optional sign, then
the leading digit run; no digits means `NaN`, modelled as `none`. -/
def strParseInt (s : String) : Option ℤ :=
  match s.data.dropWhile (fun c => c == ' ') with
  | '-' :: rest => (digitsVal rest).map (fun m => -(m : ℤ))
  | '+' :: rest => (digitsVal rest).map (fun m => (m : ℤ))
  | cs => (digitsVal cs).map (fun m => (m : ℤ))

/-- Truncation toward zero, as `parseInt` performs on a stringified number. -/
def ratTrunc (q : ℚ) : ℤ :=
  if 0 ≤ q then ⌊q⌋ else -⌊-q⌋

/-- `parseInt(v, 10)` on an option value; `none` models `NaN`. -/
def jsParseInt : JSVal → Option ℤ
  | JSVal.num q => some (ratTrunc q)
  | JSVal.str s => strParseInt s
  | JSVal.boolV _ => none
  | JSVal.nullV => none

/-- `x || 0`: `NaN` (and only-other-falsy `0`) collapse to `0`. -/
def jsOrZero : Option ℤ → ℤ
  | none => 0
  | some z => z

/-- The effective configuration of part_000: `{ ...defaults, ...options }`. -/
def mergedConfig0 (opts : List (String × JSVal)) : List (String × JSVal) :=
  objSpread defaults0 opts

/-- The merged `config.startSlide` (always present thanks to the default). -/
def startSlideVal (opts : List (String × JSVal)) : JSVal :=
  (lookupKV (mergedConfig0 opts) "startSlide").getD JSVal.nullV

/-- `index = parseInt(config.startSlide, 10) || 0` from the constructor. -/
def initIndex0 (opts : List (String × JSVal)) : ℤ :=
  jsOrZero (jsParseInt (startSlideVal opts))

theorem jsMod_of_nonneg (a b : ℤ) (ha : 0 ≤ a) : jsMod a b = a % b := by
  simp [jsMod, ha]

theorem jsMod_bounds (a b : ℤ) (hb : 0 < b) : -b < jsMod a b ∧ jsMod a b < b := by
  have hne : b ≠ 0 := by omega
  unfold jsMod
  split
  · have h1 := Int.emod_nonneg a hne
    have h2 := Int.emod_lt_of_pos a hb
    omega
  · have h1 := Int.emod_nonneg (-a) hne
    have h2 := Int.emod_lt_of_pos (-a) hb
    omega

theorem jsMod_emod (a b : ℤ) : jsMod a b % b = a % b := by
  unfold jsMod
  split
  · exact Int.emod_emod_of_dvd a dvd_rfl
  · have h : ((-a) % b) % b = (-a) % b := Int.emod_emod_of_dvd (-a) dvd_rfl
    have h2 : -((-a) % b) ≡ -(-a) [ZMOD b] := Int.ModEq.neg h
    simpa [Int.ModEq] using h2

theorem circle0_eq_emod (n : ℕ) (hn : 1 ≤ n) (idx : ℤ) : circle0 n idx = idx % n := by
  have hb : (0 : ℤ) < n := by exact_mod_cast hn
  have hbd := jsMod_bounds idx n hb
  have hnn : 0 ≤ (n : ℤ) + jsMod idx n := by omega
  unfold circle0
  rw [jsMod_of_nonneg _ _ hnn]
  have h1 : ((n : ℤ) + jsMod idx n) % n = (jsMod idx n + (n : ℤ) * 1) % n := by
    congr 1; ring
  rw [h1, Int.add_mul_emod_self_left, jsMod_emod]

theorem circle1_eq_emod (n : ℕ) (idx : ℤ) (h : -(n : ℤ) ≤ idx) :
    circle1 n idx = idx % n := by
  have hnn : 0 ≤ idx + (n : ℤ) := by omega
  unfold circle1
  rw [jsMod_of_nonneg _ _ hnn]
  have h1 : (idx + (n : ℤ)) % n = (idx + (n : ℤ) * 1) % n := by congr 1; ring
  rw [h1, Int.add_mul_emod_self_left]

theorem circle0_range (n : ℕ) (hn : 1 ≤ n) (idx : ℤ) :
    0 ≤ circle0 n idx ∧ circle0 n idx < n := by
  have hb : (0 : ℤ) < n := by exact_mod_cast hn
  rw [circle0_eq_emod n hn idx]
  exact ⟨Int.emod_nonneg idx (by omega), Int.emod_lt_of_pos idx hb⟩

/-- C7: `next()` at the last index is a no-op — the state (index, rest-offset
table and everything else) is returned unchanged and no notification fires. -/
theorem next_at_last_noop (st : SwipeState) (h : st.index = (st.slides.length : ℤ) - 1) :
    next0 st = (st, []) := by
  unfold next0
  rw [if_neg (by omega)]

theorem next_at_last_noop_witness :
    next0 (SwipeState.mk [10, 11, 12] [-300, -300, 0] 300 2 400 0 0 none 0 false) =
      (SwipeState.mk [10, 11, 12] [-300, -300, 0] 300 2 400 0 0 none 0 false, []) :=
  next_at_last_noop _ (by decide)

/-- C2: after `setup()` with `N ≥ 1` slides and active index `i ∈ [0, N−1]`,
the rest-offset table has exactly `N` entries, entry `i` is `0`, every entry
before `i` is `−W` and every entry after `i` is `+W`. -/
theorem setup_rest_offsets (st : SwipeState) (hn : 1 ≤ st.slides.length)
    (h0 : 0 ≤ st.index) (hI : st.index < (st.slides.length : ℤ)) :
    (setup0 st).slidePos.length = st.slides.length ∧
    jsArrayGet (setup0 st).slidePos st.index = 0 ∧
    (∀ j : ℤ, 0 ≤ j → j < st.index → jsArrayGet (setup0 st).slidePos j = -st.width) ∧
    (∀ j : ℤ, st.index < j → j < (st.slides.length : ℤ) →
      jsArrayGet (setup0 st).slidePos j = st.width) := by
  have hne : ¬ st.slides.length = 0 := by omega
  have hsp : (setup0 st).slidePos
      = List.ofFn (fun i : Fin st.slides.length => initialDist st.index (i : ℤ) st.width) := by
    simp [setup0, hne]
  have hget : ∀ j : ℤ, 0 ≤ j → j < (st.slides.length : ℤ) →
      jsArrayGet (setup0 st).slidePos j = initialDist st.index j st.width := by
    intro j hj0 hjN
    have hjlt : j.toNat < st.slides.length := by omega
    rw [hsp]
    unfold jsArrayGet
    rw [if_pos hj0]
    have hlen : j.toNat < (List.ofFn (fun i : Fin st.slides.length =>
        initialDist st.index (i : ℤ) st.width)).length := by simpa using hjlt
    rw [List.getD_eq_getElem _ _ hlen, List.getElem_ofFn]
    rw [show (((⟨j.toNat, hjlt⟩ : Fin st.slides.length) : ℕ) : ℤ) = j from by

      simpa using Int.toNat_of_nonneg hj0]
  refine ⟨by rw [hsp]; simp, ?_, ?_, ?_⟩
  · rw [hget st.index h0 hI]
    simp [initialDist]
  · intro j hj0 hji
    rw [hget j hj0 (by omega)]
    unfold initialDist
    rw [if_pos (by omega)]
  · intro j hji hjN
    rw [hget j (by omega) hjN]
    unfold initialDist
    rw [if_neg (by omega), if_pos (by omega)]

theorem setup_rest_offsets_witness :
    (setup0 (SwipeState.mk [10, 11, 12] [] 300 1 400 0 0 none 0 false)).slidePos.length = 3 ∧
    jsArrayGet (setup0 (SwipeState.mk [10, 11, 12] [] 300 1 400 0 0 none 0 false)).slidePos 1 = 0 ∧
    jsArrayGet (setup0 (SwipeState.mk [10, 11, 12] [] 300 1 400 0 0 none 0 false)).slidePos 0 = -300 ∧
    jsArrayGet (setup0 (SwipeState.mk [10, 11, 12] [] 300 1 400 0 0 none 0 false)).slidePos 2 = 300 := by
  have h := setup_rest_offsets (SwipeState.mk [10, 11, 12] [] 300 1 400 0 0 none 0 false)
    (by decide) (by decide) (by decide)
  exact ⟨h.1, h.2.1, h.2.2.1 0 (by decide) (by decide), h.2.2.2 2 (by decide) (by decide)⟩

/-- C8: a session whose axis lock resolved VerticalScroll ends with no index
and no rest-offset change, whatever `Δx` was; `dragEnd` still fires and the
machine returns to Idle (session listeners detached). -/
theorem vertical_scroll_end_noop (st : SwipeState) (now : ℤ)
    (h : st.isScrolling = some true) :
    (onEnd0 st now).1.index = st.index ∧
    (onEnd0 st now).1.slidePos = st.slidePos ∧
    (onEnd0 st now).2 = [SwipeEv.dragEnd (getPos0 st)] ∧
    (onEnd0 st now).1.sessionOpen = false := by
  have hneg : ¬ (st.isScrolling ≠ some true ∧ st.deltaX ≠ 0) := by
    simp [h]
  unfold onEnd0 finishSwipe0
  rw [if_neg hneg]
  exact ⟨rfl, rfl, rfl, rfl⟩

theorem vertical_scroll_end_noop_witness :
    (onEnd0 (SwipeState.mk [10, 11, 12] [0, 300, 300] 300 0 400 (-500) 40 (some true) 0 true) 60).1.index = 0 ∧
    (onEnd0 (SwipeState.mk [10, 11, 12] [0, 300, 300] 300 0 400 (-500) 40 (some true) 0 true) 60).1.slidePos = [0, 300, 300] ∧
    (onEnd0 (SwipeState.mk [10, 11, 12] [0, 300, 300] 300 0 400 (-500) 40 (some true) 0 true) 60).2 = [SwipeEv.dragEnd 0] ∧
    (onEnd0 (SwipeState.mk [10, 11, 12] [0, 300, 300] 300 0 400 (-500) 40 (some true) 0 true) 60).1.sessionOpen = false :=
  vertical_scroll_end_noop _ 60 (by decide)

theorem finishDirection_neg (st : SwipeState) (h : st.deltaX < 0) :
    (if st.deltaX = 0 then (0 : ℚ) else |st.deltaX| / st.deltaX) = -1 := by
  rw [if_neg (ne_of_lt h), abs_of_neg h, neg_div, div_self (ne_of_lt h)]

theorem finishDirection_pos (st : SwipeState) (h : 0 < st.deltaX) :
    (if st.deltaX = 0 then (0 : ℚ) else |st.deltaX| / st.deltaX) = 1 := by
  rw [if_neg (ne_of_gt h), abs_of_pos h, div_self (ne_of_gt h)]

theorem finishSwipe0_skip (st : SwipeState) (now : ℤ)
    (h : ¬ (st.isScrolling ≠ some true ∧ st.deltaX ≠ 0)) :
    finishSwipe0 st now = (st, [SwipeEv.dragEnd (getPos0 st)]) := by
  unfold finishSwipe0
  rw [if_neg h]

theorem finishSwipe0_snap (st : SwipeState) (now : ℤ)
    (hg : st.isScrolling ≠ some true ∧ st.deltaX ≠ 0)
    (hb : (validSwipe st now && !pastBounds st) = false) :
    finishSwipe0 st now =
      ({ st with slidePos := jsArraySet (jsArraySet (jsArraySet st.slidePos
          (st.index - 1) (-st.width)) st.index 0) (st.index + 1) st.width },
       [SwipeEv.dragEnd (getPos0 st)]) := by
  simp only [finishSwipe0]
  rw [if_pos hg, hb]
  rfl

theorem finishSwipe0_next (st : SwipeState) (now : ℤ)
    (hg : st.isScrolling ≠ some true ∧ st.deltaX ≠ 0)
    (hb : (validSwipe st now && !pastBounds st) = true)
    (hneg : st.deltaX < 0) :
    (finishSwipe0 st now).1.index = circle0 st.slides.length (st.index + 1) := by
  simp only [finishSwipe0]
  rw [if_pos hg, hb, finishDirection_neg st hneg]
  norm_num

theorem finishSwipe0_prev (st : SwipeState) (now : ℤ)
    (hg : st.isScrolling ≠ some true ∧ st.deltaX ≠ 0)
    (hb : (validSwipe st now && !pastBounds st) = true)
    (hpos : 0 < st.deltaX) :
    (finishSwipe0 st now).1.index = circle0 st.slides.length (st.index - 1) := by
  simp only [finishSwipe0]
  rw [if_pos hg, hb, finishDirection_pos st hpos]
  norm_num

theorem circle0_succ_ne (st : SwipeState) (hdx : st.deltaX ≠ 0)
    (hp : pastBounds st = false) (h0 : 0 ≤ st.index)
    (hI : st.index < (st.slides.length : ℤ)) :
    circle0 st.slides.length (st.index + 1) ≠ st.index ∧
    circle0 st.slides.length (st.index - 1) ≠ st.index := by
  have hn : 1 ≤ st.slides.length := by omega
  have hb : (0 : ℤ) < st.slides.length := by exact_mod_cast hn
  have hself : st.index % (st.slides.length : ℤ) = st.index :=
    Int.emod_eq_of_lt h0 hI
  have hnot : ¬ ((st.index = 0 ∧ 0 < st.deltaX) ∨
      (st.index = (st.slides.length : ℤ) - 1 ∧ st.deltaX < 0)) :=
    of_decide_eq_false hp
  have hlen : st.slides.length ≠ 1 := by
    intro h1
    have hi0 : st.index = 0 := by omega
    rcases lt_or_gt_of_ne hdx with hlt | hgt
    · exact hnot (Or.inr ⟨by omega, hlt⟩)
    · exact hnot (Or.inl ⟨hi0, hgt⟩)
  constructor
  · rw [circle0_eq_emod _ hn]
    intro heq
    have hmodeq : Int.ModEq (st.slides.length : ℤ) (st.index + 1) st.index := by
      unfold Int.ModEq
      rw [heq, hself]
    have hdvd : (st.slides.length : ℤ) ∣ st.index - (st.index + 1) := hmodeq.dvd
    have hdvd1 : (st.slides.length : ℤ) ∣ 1 := by
      have : st.index - (st.index + 1) = -1 := by ring
      rw [this] at hdvd
      exact (dvd_neg).mp hdvd
    have := Int.le_of_dvd (by norm_num) hdvd1
    omega
  · rw [circle0_eq_emod _ hn]
    intro heq
    have hmodeq : Int.ModEq (st.slides.length : ℤ) (st.index - 1) st.index := by
      unfold Int.ModEq
      rw [heq, hself]
    have hdvd : (st.slides.length : ℤ) ∣ st.index - (st.index - 1) := hmodeq.dvd
    have hdvd1 : (st.slides.length : ℤ) ∣ 1 := by
      have : st.index - (st.index - 1) = 1 := by ring
      rw [this] at hdvd
      exact hdvd
    have := Int.le_of_dvd (by norm_num) hdvd1
    omega

/-- C1: for a session that did not resolve VerticalScroll and recorded a
nonzero `Δx`, `finishSwipe` commits an index change exactly when
`isValidSlide` holds (`duration < 250 ∧ |Δx| > 20`, or `|Δx| > W/2`) and the
drag is not past the bounds; a committing negative `Δx` advances to
`circle(index+1)`, a committing positive `Δx` retreats to `circle(index−1)`,
and otherwise the index is unchanged and the three tracked slides are written
back to their rest offsets `−W, 0, +W`. -/
theorem finishSwipe_commit (st : SwipeState) (now : ℤ)
    (hscroll : st.isScrolling ≠ some true) (hdx : st.deltaX ≠ 0)
    (h0 : 0 ≤ st.index) (hI : st.index < (st.slides.length : ℤ)) :
    ((finishSwipe0 st now).1.index ≠ st.index ↔
      (validSwipe st now = true ∧ pastBounds st = false)) ∧
    (validSwipe st now = true → pastBounds st = false → st.deltaX < 0 →
      (finishSwipe0 st now).1.index = circle0 st.slides.length (st.index + 1)) ∧
    (validSwipe st now = true → pastBounds st = false → 0 < st.deltaX →
      (finishSwipe0 st now).1.index = circle0 st.slides.length (st.index - 1)) ∧
    (¬ (validSwipe st now = true ∧ pastBounds st = false) →
      (finishSwipe0 st now).1.index = st.index ∧
      (finishSwipe0 st now).1.slidePos =
        jsArraySet (jsArraySet (jsArraySet st.slidePos (st.index - 1) (-st.width))
          st.index 0) (st.index + 1) st.width) := by
  have hg : st.isScrolling ≠ some true ∧ st.deltaX ≠ 0 := ⟨hscroll, hdx⟩
  have hsnap : ¬ (validSwipe st now = true ∧ pastBounds st = false) →
      (finishSwipe0 st now).1.index = st.index ∧
      (finishSwipe0 st now).1.slidePos =
        jsArraySet (jsArraySet (jsArraySet st.slidePos (st.index - 1) (-st.width))
          st.index 0) (st.index + 1) st.width := by
    intro hc
    have hb : (validSwipe st now && !pastBounds st) = false := by
      rcases Bool.eq_false_or_eq_true (validSwipe st now) with hv | hv
      · rcases Bool.eq_false_or_eq_true (pastBounds st) with hp | hp
        · simp [hv, hp]
        · exact absurd ⟨hv, hp⟩ hc
      · simp [hv]
    rw [finishSwipe0_snap st now hg hb]
    exact ⟨rfl, rfl⟩
  refine ⟨?_, ?_, ?_, hsnap⟩
  · constructor
    · intro hne
      by_contra hc
      exact hne (hsnap hc).1
    · rintro ⟨hv, hp⟩
      have hb : (validSwipe st now && !pastBounds st) = true := by simp [hv, hp]
      have hcirc := circle0_succ_ne st hdx hp h0 hI
      rcases lt_or_gt_of_ne hdx with hlt | hgt
      · rw [finishSwipe0_next st now hg hb hlt]
        exact hcirc.1
      · rw [finishSwipe0_prev st now hg hb hgt]
        exact hcirc.2
  · intro hv hp hlt
    exact finishSwipe0_next st now hg (by simp [hv, hp]) hlt
  · intro hv hp hgt
    exact finishSwipe0_prev st now hg (by simp [hv, hp]) hgt

theorem finishSwipe_commit_witness :
    (finishSwipe0 (SwipeState.mk [10, 11, 12] [0, 300, 300] 300 0 400 (-200) 0 (some false) 0 true) 100).1.index = 1 := by
  have h := finishSwipe_commit
    (SwipeState.mk [10, 11, 12] [0, 300, 300] 300 0 400 (-200) 0 (some false) 0 true) 100
    (by decide) (by decide) (by decide) (by decide)
  rw [h.2.1 (by decide) (by decide) (by decide)]
  decide

theorem resistFormula (w dx : ℚ) (hw : 0 < w) :
    dx / (|dx| / w + 1) = dx * w / (|dx| + w) := by
  have h1 : |dx| / w + 1 = (|dx| + w) / w := by
    field_simp
  rw [h1, div_div_eq_mul_div]

theorem resistPos (w dx : ℚ) (hw : 0 < w) (h : 0 < dx) : 0 < dx * w / (|dx| + w) := by
  have hd : 0 < |dx| + w := by positivity
  exact div_pos (mul_pos h hw) hd

theorem resistNeg (w dx : ℚ) (hw : 0 < w) (h : dx < 0) : dx * w / (|dx| + w) < 0 := by
  have hd : 0 < |dx| + w := by positivity
  exact div_neg_of_neg_of_pos (mul_neg_of_neg_of_pos h hw) hd

theorem resistLtW (w dx : ℚ) (hw : 0 < w) (h : 0 < dx) : dx * w / (|dx| + w) < w := by
  have hd : 0 < |dx| + w := by positivity
  rw [div_lt_iff hd, abs_of_pos h]
  nlinarith

theorem resistGtNegW (w dx : ℚ) (hw : 0 < w) (h : dx < 0) : -w < dx * w / (|dx| + w) := by
  have hd : 0 < |dx| + w := by positivity
  rw [lt_div_iff hd, abs_of_neg h]
  nlinarith

theorem resistMono (w : ℚ) (hw : 0 < w) (dx1 dx2 : ℚ) (h : dx1 < dx2) :
    dx1 * w / (|dx1| + w) < dx2 * w / (|dx2| + w) := by
  have d1 : 0 < |dx1| + w := by positivity
  have d2 : 0 < |dx2| + w := by positivity
  rw [div_lt_div_iff d1 d2]
  have key : dx1 * |dx2| ≤ dx2 * |dx1| := by
    rcases le_or_lt 0 dx1 with c1 | c1 <;> rcases le_or_lt 0 dx2 with c2 | c2
    · rw [abs_of_nonneg c1, abs_of_nonneg c2]; nlinarith
    · linarith
    · rw [abs_of_neg c1, abs_of_nonneg c2]; nlinarith
    · rw [abs_of_neg c1, abs_of_neg c2]; nlinarith
  nlinarith [mul_pos hw hw]

/-- C3 (amended): at the first slide dragging positive or the last slide
dragging negative the resistance equals `Δx / (|Δx|/W + 1)`; the function is
strictly monotonically increasing in `Δx`; on the resisted branch its
magnitude stays below `W` — as `Δx → ∞` the resisted offset approaches but
never reaches `W` (not `2W`); elsewhere it is the identity. -/
theorem resistance_amended (i : ℤ) (n : ℕ) (w : ℚ) (hw : 0 < w) :
    (∀ dx : ℚ, ((i = 0 ∧ 0 < dx) ∨ (i = (n : ℤ) - 1 ∧ dx < 0)) →
        applyResistance0 i n w dx = dx / (|dx| / w + 1)) ∧
    StrictMono (applyResistance0 i n w) ∧
    (∀ dx : ℚ, ((i = 0 ∧ 0 < dx) ∨ (i = (n : ℤ) - 1 ∧ dx < 0)) →
        |applyResistance0 i n w dx| < w) ∧
    (∀ ε : ℚ, 0 < ε → ∃ dx : ℚ, 0 < dx ∧
        w - ε < applyResistance0 0 n w dx ∧ applyResistance0 0 n w dx < w) ∧
    (∀ dx : ℚ, ¬ ((i = 0 ∧ 0 < dx) ∨ (i = (n : ℤ) - 1 ∧ dx < 0)) →
        applyResistance0 i n w dx = dx) := by
  refine ⟨?_, ?_, ?_, ?_, ?_⟩
  · intro dx hb
    unfold applyResistance0
    rw [if_pos hb]
  · intro dx1 dx2 h
    unfold applyResistance0
    by_cases b1 : (i = 0 ∧ 0 < dx1) ∨ (i = (n : ℤ) - 1 ∧ dx1 < 0) <;>
      by_cases b2 : (i = 0 ∧ 0 < dx2) ∨ (i = (n : ℤ) - 1 ∧ dx2 < 0)
    · rw [if_pos b1, if_pos b2, resistFormula w dx1 hw, resistFormula w dx2 hw]
      exact resistMono w hw dx1 dx2 h
    · rw [if_pos b1, if_neg b2, resistFormula w dx1 hw]
      rcases b1 with ⟨hi0, hdx1⟩ | ⟨hiN, hdx1⟩
      · exact absurd (Or.inl ⟨hi0, lt_trans hdx1 h⟩) b2
      · have hdx2 : 0 ≤ dx2 := by
          by_contra hneg2
          push_neg at hneg2
          exact b2 (Or.inr ⟨hiN, hneg2⟩)
        exact lt_of_lt_of_le (resistNeg w dx1 hw hdx1) hdx2
    · rw [if_neg b1, if_pos b2, resistFormula w dx2 hw]
      rcases b2 with ⟨hi0, hdx2⟩ | ⟨hiN, hdx2⟩
      · have hdx1 : dx1 ≤ 0 := by
          by_contra hpos1
          push_neg at hpos1
          exact b1 (Or.inl ⟨hi0, hpos1⟩)
        exact lt_of_le_of_lt hdx1 (resistPos w dx2 hw hdx2)
      · exact absurd (Or.inr ⟨hiN, lt_trans h hdx2⟩) b1
    · rw [if_neg b1, if_neg b2]
      exact h
  · intro dx hb
    unfold applyResistance0
    rw [if_pos hb, resistFormula w dx hw]
    rcases hb with ⟨_, hpos⟩ | ⟨_, hneg⟩
    · rw [abs_of_pos (resistPos w dx hw hpos)]
      exact resistLtW w dx hw hpos
    · rw [abs_of_neg (resistNeg w dx hw hneg)]
      have := resistGtNegW w dx hw hneg
      linarith
  · intro ε hε
    refine ⟨w * w / ε + w, by positivity, ?_, ?_⟩
    · unfold applyResistance0
      rw [if_pos (Or.inl ⟨rfl, by positivity⟩), resistFormula w _ hw]
      have hdxpos : (0 : ℚ) < w * w / ε + w := by positivity
      rw [abs_of_pos hdxpos]
      have hden : (0 : ℚ) < w * w / ε + w + w := by positivity
      rw [lt_div_iff hden]
      have hε' : ε ≠ 0 := ne_of_gt hε
      field_simp
      rw [div_lt_div_iff (by positivity) (by positivity)]
      nlinarith [mul_pos (mul_pos hw hε) hε, mul_pos hw hw, mul_pos hε hε]
    · unfold applyResistance0
      rw [if_pos (Or.inl ⟨rfl, by positivity⟩), resistFormula w _ hw]
      have hdxpos : (0 : ℚ) < w * w / ε + w := by positivity
      exact resistLtW w _ hw hdxpos
  · intro dx hb
    unfold applyResistance0
    rw [if_neg hb]

theorem resistance_amended_witness :
    applyResistance0 0 3 300 600 = 200 ∧ applyResistance0 0 3 300 (-5) = -5 := by
  have h := resistance_amended 0 3 300 (by norm_num)
  constructor
  · rw [h.1 600 (Or.inl ⟨rfl, by norm_num⟩)]
    rw [show |(600 : ℚ)| = 600 from abs_of_pos (by norm_num)]
    norm_num
  · exact h.2.2.2.2 (-5) (by decide)

/-- C3 counterexample: the resisted offset does not approach `2W`.  With
`W = 300` (first slide of three, dragging positive) every resisted offset
stays at least `ε = 300` away from `2W = 600`, so no sequence of drags gets
within every `ε` of `2W`. -/
theorem resistance_2w_counterexample :
    ¬ (∀ ε : ℚ, 0 < ε → ∃ dx : ℚ, 0 < dx ∧
        2 * 300 - ε < applyResistance0 0 3 300 dx) := by
  intro h
  obtain ⟨dx, hp, hgt⟩ := h 300 (by norm_num)
  have hlt : applyResistance0 0 3 300 dx < 300 := by
    unfold applyResistance0
    rw [if_pos (Or.inl ⟨rfl, hp⟩), resistFormula 300 dx (by norm_num)]
    exact resistLtW 300 dx (by norm_num) hp
  linarith

theorem slideTo0_index_eq (st : SwipeState) (to0 : ℤ) (sp : Option ℚ)
    (h : st.index ≠ to0) :
    (slideTo0 st to0 sp).1.index = circle0 st.slides.length to0 := by
  unfold slideTo0
  rw [if_neg h]

/-- C9 (amended): starting from an index in `[0, N−1]`, `prev()`, `next()`,
`slideTo` (any integer target) and `finishSwipe` leave the part_000 index in
`[0, N−1]` via circular arithmetic; `setIndex`, by contrast, stores its
argument unchecked, so it preserves the range only when the caller's argument
already lies in it. -/
theorem index_stays_in_range (st : SwipeState) (now : ℤ) (t j : ℤ)
    (h0 : 0 ≤ st.index) (hI : st.index < (st.slides.length : ℤ)) :
    (0 ≤ (prev0 st).1.index ∧ (prev0 st).1.index < (st.slides.length : ℤ)) ∧
    (0 ≤ (next0 st).1.index ∧ (next0 st).1.index < (st.slides.length : ℤ)) ∧
    (0 ≤ (slideTo0 st t none).1.index ∧
      (slideTo0 st t none).1.index < (st.slides.length : ℤ)) ∧
    (0 ≤ (finishSwipe0 st now).1.index ∧
      (finishSwipe0 st now).1.index < (st.slides.length : ℤ)) ∧
    (setIndex0 st j).index = j := by
  have hn : 1 ≤ st.slides.length := by omega
  have hslide : ∀ u : ℤ, ∀ sp : Option ℚ, 0 ≤ (slideTo0 st u sp).1.index ∧
      (slideTo0 st u sp).1.index < (st.slides.length : ℤ) := by
    intro u sp
    by_cases h : st.index = u
    · unfold slideTo0
      rw [if_pos h]
      exact ⟨h0, hI⟩
    · rw [slideTo0_index_eq st u sp h]
      exact circle0_range st.slides.length hn u
  have hfin : 0 ≤ (finishSwipe0 st now).1.index ∧
      (finishSwipe0 st now).1.index < (st.slides.length : ℤ) := by
    by_cases hg : st.isScrolling ≠ some true ∧ st.deltaX ≠ 0
    · by_cases hb : (validSwipe st now && !pastBounds st) = true
      · rcases lt_or_gt_of_ne hg.2 with hlt | hgt
        · rw [finishSwipe0_next st now hg hb hlt]
          exact circle0_range st.slides.length hn _
        · rw [finishSwipe0_prev st now hg hb hgt]
          exact circle0_range st.slides.length hn _
      · rw [finishSwipe0_snap st now hg (Bool.eq_false_iff.mpr hb)]
        exact ⟨h0, hI⟩
    · rw [finishSwipe0_skip st now hg]
      exact ⟨h0, hI⟩
  refine ⟨hslide (st.index - 1) none, ?_, hslide t none, hfin, rfl⟩
  · unfold next0
    by_cases h : st.index < (st.slides.length : ℤ) - 1
    · rw [if_pos h]
      exact hslide (st.index + 1) none
    · rw [if_neg h]
      exact ⟨h0, hI⟩

theorem index_stays_in_range_witness :
    0 ≤ (prev0 (SwipeState.mk [10, 11, 12] [0, 300, 300] 300 0 400 0 0 none 0 false)).1.index ∧
    (prev0 (SwipeState.mk [10, 11, 12] [0, 300, 300] 300 0 400 0 0 none 0 false)).1.index < 3 := by
  have h := index_stays_in_range
    (SwipeState.mk [10, 11, 12] [0, 300, 300] 300 0 400 0 0 none 0 false) 0 0 0
    (by decide) (by decide)
  exact h.1

/-- C9 counterexample: `setIndex` does not keep the index in `[0, N−1]` —
with three slides and active index 0, `setIndex(5)` leaves the index at 5. -/
theorem setIndex_escapes_range :
    (setIndex0 (SwipeState.mk [10, 11, 12] [0, 300, 300] 300 0 400 0 0 none 0 false) 5).index = 5 ∧
    ¬ ((setIndex0 (SwipeState.mk [10, 11, 12] [0, 300, 300] 300 0 400 0 0 none 0 false) 5).index
        < (((SwipeState.mk [10, 11, 12] [0, 300, 300] 300 0 400 0 0 none 0 false).slides.length : ℕ) : ℤ)) := by
  constructor
  · rfl
  · decide

theorem setup0_slides (st : SwipeState) : (setup0 st).slides = st.slides := by
  unfold setup0
  split <;> rfl

theorem setup0_index (st : SwipeState) : (setup0 st).index = st.index := by
  unfold setup0
  split <;> rfl

theorem setup0_slidePos_length (st : SwipeState) (h : st.slides.length ≠ 0) :
    (setup0 st).slidePos.length = st.slides.length := by
  unfold setup0
  rw [if_neg h]
  simp

theorem setup1_slides (st : SwipeState) : (setup1 st).slides = st.slides := by
  unfold setup1
  split <;> rfl

theorem setup1_index (st : SwipeState) : (setup1 st).index = st.index := by
  unfold setup1
  split <;> rfl

theorem setup1_slidePos_length (st : SwipeState) (h : st.slides.length ≠ 0) :
    (setup1 st).slidePos.length = st.slides.length := by
  unfold setup1
  rw [if_neg h]
  simp

theorem filter_bne_of_not_mem (l : List Nat) (s : Nat) (h : s ∉ l) :
    l.filter (fun x => x != s) = l := by
  apply List.filter_eq_self.mpr
  intro a ha
  simp only [bne_iff_ne, ne_eq, decide_eq_true_eq]
  exact fun he => h (he ▸ ha)

/-- C4 (amended): the two variants differ, and neither matches "count grows
by one with the index shifted to compensate".  part_000's `appendSlide`
removes the first slide, appends the node and decrements the index — the
count stays the same (for a nonempty collection); its `prependSlide` removes
the last slide, prepends and increments.  part_001's `appendSlide` appends
without touching the index (count grows by one), and its `prependSlide`
prepends and increments the index (count grows by one).  All four re-run the
full `setup()`, which rebuilds the rest-offset table at the new count. -/
theorem append_prepend_behavior (st : SwipeState) (s : Nat)
    (hfresh : s ∉ st.slides) (hne : st.slides ≠ []) :
    (appendSlide0 s st).slides = st.slides.tail ++ [s] ∧
    (appendSlide0 s st).slides.length = st.slides.length ∧
    (appendSlide0 s st).index = st.index - 1 ∧
    (appendSlide0 s st).slidePos.length = st.slides.length ∧
    (prependSlide0 s st).slides.length = st.slides.length ∧
    (prependSlide0 s st).index = st.index + 1 ∧
    (appendSlide1 s st).slides.length = st.slides.length + 1 ∧
    (appendSlide1 s st).index = st.index ∧
    (prependSlide1 s st).slides.length = st.slides.length + 1 ∧
    (prependSlide1 s st).index = st.index + 1 := by
  have hlen : 1 ≤ st.slides.length := List.length_pos.mpr hne
  have htail : s ∉ st.slides.tail := fun hmem => hfresh (List.mem_of_mem_tail hmem)
  have hdrop : s ∉ st.slides.dropLast := fun hmem =>
    hfresh ((List.dropLast_sublist st.slides).subset hmem)
  have happ : jsAppendChild st.slides.tail s = st.slides.tail ++ [s] := by
    unfold jsAppendChild
    rw [filter_bne_of_not_mem _ _ htail]
  have happlen : (jsAppendChild st.slides.tail s).length = st.slides.length := by
    rw [happ]
    simp [List.length_tail]
    omega
  have hpre0len : (jsPrependChild st.slides.dropLast s).length = st.slides.length := by
    unfold jsPrependChild
    rw [filter_bne_of_not_mem _ _ hdrop]
    simp [List.length_dropLast]
    omega
  have happ1 : jsAppendChild st.slides s = st.slides ++ [s] := by
    unfold jsAppendChild
    rw [filter_bne_of_not_mem _ _ hfresh]
  have hpre1 : jsPrependChild st.slides s = s :: st.slides := by
    unfold jsPrependChild
    rw [filter_bne_of_not_mem _ _ hfresh]
  refine ⟨?_, ?_, ?_, ?_, ?_, ?_, ?_, ?_, ?_, ?_⟩
  · unfold appendSlide0
    rw [setup0_slides]
    exact happ
  · unfold appendSlide0
    rw [setup0_slides]
    exact happlen
  · unfold appendSlide0
    rw [setup0_index]
  · unfold appendSlide0
    rw [setup0_slidePos_length _ (by simp only [happlen]; omega)]
    exact happlen
  · unfold prependSlide0
    rw [setup0_slides]
    exact hpre0len
  · unfold prependSlide0
    rw [setup0_index]
  · unfold appendSlide1
    rw [setup1_slides, happ1]
    simp
  · unfold appendSlide1
    rw [setup1_index]
  · unfold prependSlide1
    rw [setup1_slides, hpre1]
    simp
  · unfold prependSlide1
    rw [setup1_index]

theorem append_prepend_behavior_witness :
    (appendSlide0 7 (SwipeState.mk [1, 2] [0, 300] 300 0 400 0 0 none 0 false)).slides.length = 2 ∧
    (appendSlide0 7 (SwipeState.mk [1, 2] [0, 300] 300 0 400 0 0 none 0 false)).index = -1 ∧
    (appendSlide1 7 (SwipeState.mk [1, 2] [0, 300] 300 0 400 0 0 none 0 false)).slides.length = 3 ∧
    (appendSlide1 7 (SwipeState.mk [1, 2] [0, 300] 300 0 400 0 0 none 0 false)).index = 0 := by
  have h := append_prepend_behavior (SwipeState.mk [1, 2] [0, 300] 300 0 400 0 0 none 0 false) 7
    (by decide) (by decide)
  exact ⟨h.2.1, h.2.2.1, h.2.2.2.2.2.2.1, h.2.2.2.2.2.2.2.1⟩

/-- C4 counterexample: with two slides and a fresh node, part_000's
`appendSlide` leaves the count at 2 (not 3), and part_001's `appendSlide`
leaves the index at 1 (it does not shift it to 0). -/
theorem appendSlide_claim_fails :
    ¬ ((appendSlide0 7 (SwipeState.mk [1, 2] [0, 300] 300 0 400 0 0 none 0 false)).slides.length
        = (SwipeState.mk [1, 2] [0, 300] 300 0 400 0 0 none 0 false).slides.length + 1) ∧
    ¬ ((appendSlide1 7 (SwipeState.mk [1, 2] [0, 300] 300 1 400 0 0 none 0 false)).index
        = (SwipeState.mk [1, 2] [0, 300] 300 1 400 0 0 none 0 false).index - 1) := by
  constructor <;> decide

theorem lookup_setKV (l : List (String × JSVal)) (k : String) (v : JSVal) (q : String) :
    lookupKV (setKV l k v) q = if q = k then some v else lookupKV l q := by
  induction l with
  | nil =>
    by_cases h : q = k
    · simp [setKV, lookupKV, h]
    · have h' : k ≠ q := fun hh => h hh.symm
      simp [setKV, lookupKV, h, h']
  | cons p rest ih =>
    by_cases hp : p.1 = k
    · by_cases hq : q = k
      · simp [setKV, lookupKV, hp, hq]
      · have hk : k ≠ q := fun hh => hq hh.symm
        have hpq : p.1 ≠ q := by rw [hp]; exact hk
        simp [setKV, lookupKV, hp, hq, hk, hpq]
    · by_cases hpq : p.1 = q
      · have hq : q ≠ k := fun hh => hp (hpq.trans hh)
        simp [setKV, lookupKV, hp, hpq, hq]
      · simp [setKV, lookupKV, hp, hpq, ih]

theorem lookup_append (a b : List (String × JSVal)) (k : String) :
    lookupKV (a ++ b) k = (lookupKV a k <|> lookupKV b k) := by
  induction a with
  | nil => simp [lookupKV]
  | cons p rest ih =>
    by_cases hp : p.1 = k
    · simp [lookupKV, hp]
    · simp [lookupKV, hp, ih]

theorem lookup_objSpread (d o : List (String × JSVal)) (k : String) :
    lookupKV (objSpread d o) k = (lookupKV o.reverse k <|> lookupKV d k) := by
  induction o generalizing d with
  | nil => simp [objSpread, lookupKV]
  | cons p rest ih =>
    have hstep : objSpread d (p :: rest) = objSpread (setKV d p.1 p.2) rest := rfl
    rw [hstep, ih, List.reverse_cons, lookup_append, lookup_setKV]
    cases hr : lookupKV rest.reverse k with
    | some x => simp
    | none =>
      simp only [Option.none_orElse]
      by_cases hk : k = p.1
      · rw [if_pos hk]
        have hone : lookupKV [p] k = some p.2 := by simp [lookupKV, hk.symm]
        rw [hone, Option.some_orElse]
      · rw [if_neg hk]
        have hp : p.1 ≠ k := fun hh => hk hh.symm
        have hone : lookupKV [p] k = none := by simp [lookupKV, hp]
        rw [hone, Option.none_orElse]

/-- C5 (amended): configuration resolution merges caller options over the
defaults per key (caller key wins, unknown keys pass through for callback
use); a non-numeric `startSlide` yields the default initial index 0 via
`parseInt(...) || 0`; `speed`, however, is *not* coerced — the merged value is
used verbatim, with the default 400 applying only when the caller omits it. -/
theorem config_resolution (opts : List (String × JSVal)) :
    (∀ k, lookupKV (mergedConfig0 opts) k =
      (lookupKV opts.reverse k <|> lookupKV defaults0 k)) ∧
    (jsParseInt (startSlideVal opts) = none → initIndex0 opts = 0) ∧
    (∀ k, lookupKV defaults0 k = none →
      lookupKV (mergedConfig0 opts) k = lookupKV opts.reverse k) ∧
    (lookupKV (mergedConfig0 opts) "speed" =
      (lookupKV opts.reverse "speed" <|> some (JSVal.num 400))) := by
  have hmain : ∀ k, lookupKV (mergedConfig0 opts) k =
      (lookupKV opts.reverse k <|> lookupKV defaults0 k) :=
    fun k => lookup_objSpread defaults0 opts k
  refine ⟨hmain, ?_, ?_, ?_⟩
  · intro h
    unfold initIndex0
    rw [h]
    rfl
  · intro k hk
    rw [hmain k, hk]
    cases lookupKV opts.reverse k <;> rfl
  · rw [hmain "speed"]
    rfl

theorem config_resolution_witness :
    initIndex0 [("startSlide", JSVal.str "abc"), ("custom", JSVal.num 7)] = 0 ∧
    lookupKV (mergedConfig0 [("startSlide", JSVal.str "abc"), ("custom", JSVal.num 7)])
      "custom" = some (JSVal.num 7) := by
  have h := config_resolution [("startSlide", JSVal.str "abc"), ("custom", JSVal.num 7)]
  constructor
  · exact h.2.1 (by decide)
  · rw [h.2.2.1 "custom" (by decide)]
    decide

/-- C5 counterexample: a non-numeric `speed` is not coerced to the default
400 — the engine's merged configuration keeps the caller's string verbatim. -/
theorem speed_not_coerced :
    lookupKV (mergedConfig0 [("speed", JSVal.str "fast")]) "speed"
      = some (JSVal.str "fast") ∧
    some (JSVal.str "fast") ≠ some (JSVal.num 400) := by
  constructor <;> decide

theorem wheelSlower_eq (a w : ℚ) (hw : 0 < w) :
    (if a > w * 2 then (0.01 : ℚ)
     else if a > w * 1.5 then 0.05
     else if a > w then 0.1
     else if a > w * 0.5 then 0.3
     else 0.7) = wheelDampSpec a w := by
  unfold wheelDampSpec
  split_ifs <;> first | rfl | linarith

/-- C6 (amended): part_001's wheel handler (not paused) qualifies an event
exactly when the `deltaMode`-normalized `|deltaX|` is at least 3px, and then
subtracts `deltaX · f` from the accumulated Δx, where `f` is keyed to the
*previous* accumulated `|Δx|`: 0.7 at or below `W/2`, 0.3 at or below `W`,
0.1 at or below `1.5·W`, 0.05 at or below `2·W`, else 0.01 (the tiers are
closed on the left, not open as the claim's "below" reads), and subtracts
`deltaY · 0.5` from the accumulated Δy; index and rest offsets are untouched.
part_000's handler accumulates identically but applies *no* unit conversion:
it compares the raw `deltaX` against 3. -/
theorem wheel_accumulation (st : SwipeState) (now : ℤ) (dX dY : ℚ) (dM : ℤ)
    (hw : 0 < st.width) :
    (|wheelNormalize dM st.width dX| < 3 → onWheel1 st now dX dY dM false = st) ∧
    (3 ≤ |wheelNormalize dM st.width dX| →
      (onWheel1 st now dX dY dM false).deltaX
          = st.deltaX - wheelNormalize dM st.width dX * wheelDampSpec |st.deltaX| st.width ∧
      (onWheel1 st now dX dY dM false).deltaY
          = st.deltaY - wheelNormalize dM st.width dY * 0.5 ∧
      (onWheel1 st now dX dY dM false).index = st.index ∧
      (onWheel1 st now dX dY dM false).slidePos = st.slidePos) ∧
    (|dX| < 3 → onWheel0 st now dX dY = st) ∧
    (3 ≤ |dX| →
      (onWheel0 st now dX dY).deltaX = st.deltaX - dX * wheelDampSpec |st.deltaX| st.width ∧
      (onWheel0 st now dX dY).deltaY = st.deltaY - dY * 0.5) := by
  have hchain := wheelSlower_eq |st.deltaX| st.width hw
  refine ⟨?_, ?_, ?_, ?_⟩
  · intro h
    simp only [onWheel1]
    rw [if_neg (by simp), if_pos h]
  · intro h
    have hnot : ¬ |wheelNormalize dM st.width dX| < 3 := not_lt.mpr h
    have hX : (if st.deltaX = 0 then { st with startTime := now } else st).deltaX
        = st.deltaX := by split <;> rfl
    have hY : (if st.deltaX = 0 then { st with startTime := now } else st).deltaY
        = st.deltaY := by split <;> rfl
    have hW : (if st.deltaX = 0 then { st with startTime := now } else st).width
        = st.width := by split <;> rfl
    have hK : (if st.deltaX = 0 then { st with startTime := now } else st).index
        = st.index := by split <;> rfl
    have hP : (if st.deltaX = 0 then { st with startTime := now } else st).slidePos
        = st.slidePos := by split <;> rfl
    simp only [onWheel1]
    rw [if_neg (by simp), if_neg hnot]
    dsimp only
    rw [hX, hY, hW, hK, hP, hchain]
    exact ⟨rfl, rfl, rfl, rfl⟩
  · intro h
    simp only [onWheel0]
    rw [if_pos h]
  · intro h
    have hnot : ¬ |dX| < 3 := not_lt.mpr h
    have hX : (if st.deltaX = 0 then { st with startTime := now } else st).deltaX
        = st.deltaX := by split <;> rfl
    have hY : (if st.deltaX = 0 then { st with startTime := now } else st).deltaY
        = st.deltaY := by split <;> rfl
    have hW : (if st.deltaX = 0 then { st with startTime := now } else st).width
        = st.width := by split <;> rfl
    simp only [onWheel0]
    rw [if_neg hnot]
    dsimp only
    rw [hX, hY, hW, hchain]
    exact ⟨rfl, rfl⟩

theorem wheel_accumulation_witness :
    (onWheel1 (SwipeState.mk [1, 2, 3] [0, 300, 300] 300 0 400 0 0 none 0 false)
      5 40 10 0 false).deltaX = -28 ∧
    (onWheel0 (SwipeState.mk [1, 2, 3] [0, 300, 300] 300 0 400 0 0 none 0 false)
      5 40 10).deltaX = -28 := by
  have h := wheel_accumulation
    (SwipeState.mk [1, 2, 3] [0, 300, 300] 300 0 400 0 0 none 0 false) 5 40 10 0
    (by norm_num)
  obtain ⟨hx, -, -, -⟩ := h.2.1 (by norm_num [wheelNormalize])
  obtain ⟨hx0, -⟩ := h.2.2.2 (by norm_num)
  constructor
  · rw [hx]
    norm_num [wheelNormalize, wheelDampSpec]
  · rw [hx0]
    norm_num [wheelDampSpec]

/-- C6 counterexample: the damping tiers are closed on the left, not open as
the claim's "below" thresholds read.  With `W = 300` and accumulated
`Δx = 150` (ratio exactly 0.5) the code still applies 0.7 — the new
accumulated Δx after a `deltaX = 10` event is `150 − 7 = 143`, not the
`150 − 10·0.3 = 147` the claim's tier table predicts. -/
theorem wheel_tier_boundary_counterexample :
    (onWheel1 (SwipeState.mk [1, 2, 3] [0, 300, 300] 300 0 400 150 0 none 0 false)
      5 10 0 0 false).deltaX = 143 ∧
    (143 : ℚ) ≠ 150 - 10 * 0.3 := by
  constructor
  · norm_num [onWheel1, wheelNormalize]
  · norm_num

/-- C10 (amended): the two engine variants agree on the core gesture logic —
identical resistance function, identical `setup` rest-offset layout, `circle`
agreeing on every argument down to `−N`, and identical `finishSwipe` results
(state and notifications) from any in-range index — but they are *not*
observationally equivalent as a whole: `appendSlide`/`prependSlide`, wheel
unit normalization, the `paused` flag, `getPos`, and `circle` below `−N`
differ between them. -/
theorem variants_core_agree :
    applyResistance0 = applyResistance1 ∧
    setup0 = setup1 ∧
    (∀ (n : ℕ) (idx : ℤ), 1 ≤ n → -(n : ℤ) ≤ idx → circle0 n idx = circle1 n idx) ∧
    (∀ (st : SwipeState) (now : ℤ), 0 ≤ st.index → st.index < (st.slides.length : ℤ) →
      finishSwipe0 st now = finishSwipe1 st now) := by
  refine ⟨rfl, rfl, ?_, ?_⟩
  · intro n idx hn h
    rw [circle0_eq_emod n hn idx, circle1_eq_emod n idx h]
  · intro st now h0 hI
    have hn : 1 ≤ st.slides.length := by omega
    have hip1 : -(st.slides.length : ℤ) ≤ st.index + 1 := by omega
    have him1 : -(st.slides.length : ℤ) ≤ st.index - 1 := by omega
    have hc1 : circle0 st.slides.length (st.index + 1)
        = circle1 st.slides.length (st.index + 1) := by
      rw [circle0_eq_emod _ hn, circle1_eq_emod _ _ hip1]
    have hc2 : circle0 st.slides.length (st.index - 1)
        = circle1 st.slides.length (st.index - 1) := by
      rw [circle0_eq_emod _ hn, circle1_eq_emod _ _ him1]
    have hr1 : circle1 st.slides.length (st.index + 1) < (st.slides.length : ℤ) := by
      rw [← hc1]
      exact (circle0_range _ hn _).2
    have hr2 : circle1 st.slides.length (st.index - 1) < (st.slides.length : ℤ) := by
      rw [← hc2]
      exact (circle0_range _ hn _).2
    by_cases hg : st.isScrolling ≠ some true ∧ st.deltaX ≠ 0
    · by_cases hb : (validSwipe st now && !pastBounds st) = true
      · rcases lt_or_gt_of_ne hg.2 with hlt | hgt
        · simp only [finishSwipe0, finishSwipe1]
          rw [if_pos hg, if_pos hg, hb, finishDirection_neg st hlt]
          norm_num
          rw [hc1]
          refine ⟨⟨rfl, rfl⟩, ?_⟩
          simp only [getPos0, getPos1]
          rw [if_neg (not_le.mpr hr1)]
        · simp only [finishSwipe0, finishSwipe1]
          rw [if_pos hg, if_pos hg, hb, finishDirection_pos st hgt]
          norm_num
          rw [hc2]
          refine ⟨⟨rfl, rfl⟩, ?_⟩
          simp only [getPos0, getPos1]
          rw [if_neg (not_le.mpr hr2)]
      · have hb' : (validSwipe st now && !pastBounds st) = false := Bool.eq_false_iff.mpr hb
        simp only [finishSwipe0, finishSwipe1]
        rw [if_pos hg, if_pos hg, hb']
        norm_num
        simp only [getPos0, getPos1]
        rw [if_neg (not_le.mpr hI)]
    · simp only [finishSwipe0, finishSwipe1]
      rw [if_neg hg, if_neg hg]
      congr 1
      simp only [getPos0, getPos1]
      rw [if_neg (not_le.mpr hI)]

theorem variants_core_agree_witness :
    finishSwipe0 (SwipeState.mk [1, 2, 3] [0, 300, 300] 300 1 400 (-200) 0 (some false) 0 true) 100
      = finishSwipe1 (SwipeState.mk [1, 2, 3] [0, 300, 300] 300 1 400 (-200) 0 (some false) 0 true) 100 :=
  variants_core_agree.2.2.2 _ 100 (by decide) (by decide)

/-- C10 counterexample: the variants are not observationally equivalent —
feeding the same `appendSlide` call with a fresh node to the same 2-slide
state leaves part_000 at 2 slides (it removes the first child) but takes
part_001 to 3 slides, so `getNumSlides` differs. -/
theorem variants_diverge :
    (appendSlide0 9 (SwipeState.mk [1, 2] [0, 300] 300 0 400 0 0 none 0 false)).slides.length = 2 ∧
    (appendSlide1 9 (SwipeState.mk [1, 2] [0, 300] 300 0 400 0 0 none 0 false)).slides.length = 3 ∧
    (2 : ℕ) ≠ 3 := by
  refine ⟨by decide, by decide, by decide⟩
